import Mathlib

/-
Verification of the HDRView raw-capture decode and color pipeline
(src/HDRImageIO.cpp) against its natural-language specification.

The development shallowly embeds the relevant functions of HDRImageIO.cpp
into Lean: machine floats are modelled as rationals (every value that the
claims inspect is either an integer below 2^24, which a 32-bit float holds
exactly, or the result of exact field arithmetic), byte buffers are lists
of naturals, and the 4-channel float image container is a width/height pair
together with a pixel function.  Stateful C++ loops become per-index pixel
functions; the bit operations `x >> s`, `x << s`, `x & (2^k - 1)` of the
decoders are written `x / 2 ^ s`, `x * 2 ^ s`, `x % 2^k`, which agree on
the unsigned values involved.
-/

namespace HDRImageIO

/-- A pixel of the canonical image representation: Color4 of HDRImage.h,
an (R,G,B,A) quadruple of 32-bit floats, modelled as rationals. -/
def Color4 : Type := ℚ × ℚ × ℚ × ℚ

instance : Inhabited Color4 := ⟨((0:ℚ), (0:ℚ), (0:ℚ), (0:ℚ))⟩

instance : DecidableEq Color4 := by unfold Color4; infer_instance

/-- Modelled from the spec: the CanonicalImage container (HDRImage.h is not
under src/), a 2-D grid of Color4 pixels given by its dimensions and a total
pixel function; spec section 3 "CanonicalImage". -/
structure Image where
  width : ℕ
  height : ℕ
  pix : ℕ → ℕ → Color4

/-- The empty image produced by `resize(0, 0)` on a failed load. -/
def emptyImage : Image := ⟨0, 0, fun _ _ => default⟩

/-- Modelled from the spec: flip-horizontal of the geometric image
operations interface (spec section 6; HDRImage.h is not under src/):
mirror the pixel grid across the vertical axis. -/
def flippedHorizontal (img : Image) : Image :=
  ⟨img.width, img.height, fun x y => img.pix (img.width - 1 - x) y⟩

/-- Modelled from the spec: flip-vertical of the geometric image
operations interface (spec section 6): mirror across the horizontal axis. -/
def flippedVertical (img : Image) : Image :=
  ⟨img.width, img.height, fun x y => img.pix x (img.height - 1 - y)⟩

/-- Modelled from the spec: rotate-90-clockwise of the geometric image
operations interface (spec section 6); dimensions swap. -/
def rotated90CW (img : Image) : Image :=
  ⟨img.height, img.width, fun x y => img.pix y (img.height - 1 - x)⟩

/-- Modelled from the spec: rotate-90-counter-clockwise of the geometric
image operations interface (spec section 6); dimensions swap. -/
def rotated90CCW (img : Image) : Image :=
  ⟨img.height, img.width, fun x y => img.pix (img.width - 1 - y) x⟩

/-- The orientation switch of HDRImage::load (HDRImageIO.cpp lines
476-499): an 8-state lookup sending the stored DNG orientation code to a
sequence of flips/rotations; every other code (including 0 and 1) falls
through to the `default` branch and leaves the image unchanged. -/
def orientImage (orientation : ℤ) (img : Image) : Image :=
  if orientation = 2 then flippedHorizontal img
  else if orientation = 3 then flippedHorizontal (flippedVertical img)
  else if orientation = 4 then flippedVertical img
  else if orientation = 5 then flippedVertical (rotated90CCW img)
  else if orientation = 6 then rotated90CW img
  else if orientation = 7 then flippedVertical (rotated90CW img)
  else if orientation = 8 then rotated90CCW img
  else img

/-- The sample extractor inside decode12BitToFloat (HDRImageIO.cpp lines
802-865): for output sample `n`, three bytes are fetched starting at
`addr3 = (n / 2) * 3` (with the short-byte-swap shuffle when `swapEndian`),
two of them selected by the offset table `{{0,1},{1,2}}`, combined
big-endian and shifted by the table `{4, 0}`, then masked to 12 bits. -/
def decode12Sample (data : List ℕ) (n : ℕ) (swapEndian : Bool) : ℕ :=
  let n2 := n % 2
  let addr3 := (n / 2) * 3
  let odd := addr3 % 2
  let offset0 := if n2 = 0 then 0 else 1
  let offset1 := if n2 = 0 then 1 else 2
  let shift := if n2 = 0 then 4 else 0
  let buf : ℕ → ℕ := fun j =>
    if swapEndian then
      if odd = 1 then
        if j = 0 then data.getD (addr3 - 1) 0
        else if j = 1 then data.getD (addr3 + 2) 0
        else data.getD (addr3 + 1) 0
      else
        if j = 0 then data.getD (addr3 + 1) 0
        else if j = 1 then data.getD (addr3 + 0) 0
        else data.getD (addr3 + 3) 0
    else data.getD (addr3 + j) 0
  let b0 := buf offset0 % 256
  let b1 := buf offset1 % 256
  (b0 * 256 + b1) / 2 ^ shift % 4096

/-- decode12BitToFloat (HDRImageIO.cpp lines 802-865): unpack
`width * height` 12-bit samples out of a byte buffer into a float array;
each stored float is the exact integer sample value (below 2^24), so it is
modelled as the cast of the natural number sample. -/
def decode12BitToFloat (data : List ℕ) (width height : ℕ)
    (swapEndian : Bool) : List ℚ :=
  (List.range (width * height)).map fun n =>
    ((decode12Sample data n swapEndian : ℕ) : ℚ)

/-- endianSwap (HDRImageIO.cpp lines 782-793): swap the two bytes of a
16-bit unsigned value (the reinterpreted store/load is little-endian). -/
def endianSwap (val : ℕ) : ℕ :=
  val / 256 % 256 + val % 256 * 256

/-- The 16-bit load `ptr[i]` of decode16BitToFloat: the two bytes at byte
offset `2 * i` read as a little-endian 16-bit unsigned integer (the
reinterpret_cast of the byte buffer on the little-endian host). -/
def readU16LE (data : List ℕ) (i : ℕ) : ℕ :=
  data.getD (2 * i) 0 % 256 + data.getD (2 * i + 1) 0 % 256 * 256

/-- decode16BitToFloat (HDRImageIO.cpp lines 949-970): sample `i` is the
16-bit unsigned value at byte offset `2 * i`, optionally byte-swapped;
stored floats are the exact integer values. -/
def decode16BitToFloat (data : List ℕ) (width height : ℕ)
    (swapEndian : Bool) : List ℚ :=
  (List.range (width * height)).map fun i =>
    let val := readU16LE data i
    (((if swapEndian then endianSwap val else val) : ℕ) : ℚ)

/-- A synthetic little-endian 16-bit packer (low byte then high byte),
used to state the round-trip identity of spec section 8 against
decode16BitToFloat. -/
def pack16LE (vals : List ℕ) : List ℕ :=
  vals.flatMap fun v => [v % 256, v / 256]

end HDRImageIO

namespace HDRImageIO

lemma pack16LE_getD_even (vals : List ℕ) (i : ℕ) :
    (pack16LE vals).getD (2 * i) 0 = vals.getD i 0 % 256 := by
  induction vals generalizing i with
  | nil => simp [pack16LE]
  | cons v t ih =>
      cases i with
      | zero => simp [pack16LE]
      | succ j =>
          have h2 : 2 * (j + 1) = 2 * j + 1 + 1 := by ring
          simp only [pack16LE, List.flatMap_cons, List.cons_append,
            List.nil_append, h2, List.getD_cons_succ]
          exact ih j

lemma pack16LE_getD_odd (vals : List ℕ) (i : ℕ) :
    (pack16LE vals).getD (2 * i + 1) 0 = vals.getD i 0 / 256 := by
  induction vals generalizing i with
  | nil => simp [pack16LE]
  | cons v t ih =>
      cases i with
      | zero => simp [pack16LE]
      | succ j =>
          have h2 : 2 * (j + 1) + 1 = 2 * j + 1 + 1 + 1 := by ring
          simp only [pack16LE, List.flatMap_cons, List.cons_append,
            List.nil_append, h2, List.getD_cons_succ]
          exact ih j

/-- C4: Bit-Unpacker 16-bit identity.  With the endian-swap flag false,
decode16BitToFloat produces a float array of length `width * height` whose
element `i` is exactly the 16-bit little-endian integer formed by the two
bytes at byte offset `2 * i`; consequently decoding a synthetically packed
buffer of integers below 2^16 reproduces every input integer exactly. -/
theorem C4_decode16_identity (data : List ℕ) (w h : ℕ) :
    (decode16BitToFloat data w h false).length = w * h ∧
    (∀ i, i < w * h →
      (decode16BitToFloat data w h false).getD i 0 =
        ((data.getD (2 * i) 0 % 256 + data.getD (2 * i + 1) 0 % 256 * 256 : ℕ) : ℚ)) ∧
    (∀ vals : List ℕ, (∀ v ∈ vals, v < 65536) →
      decode16BitToFloat (pack16LE vals) vals.length 1 false =
        vals.map fun v : ℕ => (v : ℚ)) := by
  refine ⟨by simp [decode16BitToFloat], ?_, ?_⟩
  · intro i hi
    rw [List.getD_eq_getElem _ _ (by simpa [decode16BitToFloat] using hi)]
    simp [decode16BitToFloat, readU16LE]
  · intro vals hv
    apply List.ext_getElem
    · simp only [decode16BitToFloat, List.length_map, List.length_range, mul_one]
    intro i h1 h2
    have hi : i < vals.length := by
      simpa only [decode16BitToFloat, List.length_map, List.length_range,
        mul_one] using h1
    simp only [decode16BitToFloat, List.getElem_map, List.getElem_range,
      readU16LE, Bool.false_eq_true, if_false]
    rw [pack16LE_getD_even, pack16LE_getD_odd]
    have hmem : vals.getD i 0 ∈ vals := by
      rw [List.getD_eq_getElem _ _ hi]
      exact List.getElem_mem hi
    have hlt : vals.getD i 0 < 65536 := hv _ hmem
    rw [List.getD_eq_getElem _ _ hi] at hlt ⊢
    have : vals[i] % 256 % 256 + vals[i] / 256 % 256 * 256 = vals[i] := by omega
    rw [this]

/-- C4 witness: the identity evaluated on concrete buffers; element 1 of
decoding the byte buffer [1, 2, 3, 4] is 3 + 256 * 4 = 1027, and packing
then decoding [700, 65535] reproduces [700, 65535]. -/
theorem C4_decode16_identity_witness :
    (decode16BitToFloat [1, 2, 3, 4] 2 1 false).getD 1 0 = (1027 : ℚ) ∧
    decode16BitToFloat (pack16LE [700, 65535]) 2 1 false =
      [(700 : ℚ), (65535 : ℚ)] := by
  constructor
  · have h := (C4_decode16_identity [1, 2, 3, 4] 2 1).2.1 1 (by norm_num)
    rw [h]; norm_num
  · have h := (C4_decode16_identity [] 0 0).2.2 [700, 65535] (by decide)
    simpa using h

/-- C3 counterexample: the claim's golden vector is wrong for the code.
Decoding the packed buffer [0xBC, 0x2A, 0x13] as two 12-bit samples with
no endian swap does not yield [0xABC, 0x123]: sample 0 is the top 12 bits
of 0xBC2A, namely 0xBC2, and sample 1 is the low 12 bits of 0x2A13,
namely 0xA13. -/
theorem C3_counterexample :
    decode12BitToFloat [0xBC, 0x2A, 0x13] 2 1 false ≠ [(0xABC : ℚ), (0x123 : ℚ)] := by
  decide

/-- C3 amended: decoding the 3-byte packed buffer [0xBC, 0x2A, 0x13] as
two 12-bit samples with no endian swap yields the sample values
[0xBC2, 0xA13] (the byte buffer that decodes to [0xABC, 0x123] is
[0xAB, 0xC1, 0x23]). -/
theorem C3_decode12_golden_amended :
    decode12BitToFloat [0xBC, 0x2A, 0x13] 2 1 false = [(0xBC2 : ℚ), (0xA13 : ℚ)] ∧
    decode12BitToFloat [0xAB, 0xC1, 0x23] 2 1 false = [(0xABC : ℚ), (0x123 : ℚ)] := by
  constructor <;> decide

/-- C7: the Orientation Normalizer is the identity for code 1 and for
every code outside [1, 8] (including 0), and code 3 produces exactly the
image obtained by applying flip-horizontal followed by flip-vertical. -/
theorem C7_orientation (img : Image) (c : ℤ) (h : c = 1 ∨ c < 1 ∨ 8 < c) :
    orientImage c img = img ∧
    orientImage 3 img = flippedVertical (flippedHorizontal img) := by
  constructor
  · have h2 : c ≠ 2 := by omega
    have h3 : c ≠ 3 := by omega
    have h4 : c ≠ 4 := by omega
    have h5 : c ≠ 5 := by omega
    have h6 : c ≠ 6 := by omega
    have h7 : c ≠ 7 := by omega
    have h8 : c ≠ 8 := by omega
    simp [orientImage, h2, h3, h4, h5, h6, h7, h8]
  · rfl

/-- C7 witness: the orientation property evaluated at the out-of-range
code 0 on a concrete 2-by-2 image. -/
theorem C7_orientation_witness :
    ((0 : ℤ) = 1 ∨ (0 : ℤ) < 1 ∨ 8 < (0 : ℤ)) ∧
    (orientImage 0 ⟨2, 2, fun x y => ((x : ℚ), (y : ℚ), 0, 1)⟩ =
        ⟨2, 2, fun x y => ((x : ℚ), (y : ℚ), 0, 1)⟩ ∧
      orientImage 3 ⟨2, 2, fun x y => ((x : ℚ), (y : ℚ), 0, 1)⟩ =
        flippedVertical (flippedHorizontal ⟨2, 2, fun x y => ((x : ℚ), (y : ℚ), 0, 1)⟩)) :=
  ⟨by norm_num, C7_orientation ⟨2, 2, fun x y => ((x : ℚ), (y : ℚ), 0, 1)⟩ 0 (by norm_num)⟩

end HDRImageIO

namespace HDRImageIO

/-- Modelled from the spec: clamp of Common.h (not under src/), plain
interval clamping min(max(v, lo), hi); spec section 4.3 step 1 writes the
normalization as clamp(..., 0, 1). -/
def clampQ (v lo hi : ℚ) : ℚ := min (max v lo) hi

/-- The fixed reference matrix XYZD65TosRGB (HDRImageIO.cpp lines
658-661). -/
def XYZD65TosRGB : Matrix (Fin 3) (Fin 3) ℚ :=
  !![3.2406, -1.5372, -0.4986;
     -0.9689, 1.8758, 0.0415;
     0.0557, -0.2040, 1.0570]

/-- The fixed reference matrix XYZD50ToXYZD65 (HDRImageIO.cpp lines
663-666). -/
def XYZD50ToXYZD65 : Matrix (Fin 3) (Fin 3) ℚ :=
  !![0.9555766, -0.0230393, 0.0631636;
     -0.0282895, 1.0099416, 0.0210077;
     0.0122982, -0.0204830, 1.3299098]

/-- The fixed reference matrix XYZD50TosRGB (HDRImageIO.cpp lines
669-672), the constant the spec calls XYZ_D50_to_sRGB. -/
def XYZD50TosRGB : Matrix (Fin 3) (Fin 3) ℚ :=
  !![3.2404542, -1.5371385, -0.4985314;
     -0.9692660, 1.8760108, 0.0415560;
     0.0556434, -0.2040259, 1.0572252]

/-- The fields of tinydng::DNGImage that HDRImageIO.cpp reads: per-image
raw sensor metadata.  Matrix and balance entries are the floats of the DNG
tags, modelled as rationals; levels, the active-area rectangle and the
orientation code are C ints. -/
structure DNGImage where
  width : ℕ
  height : ℕ
  bits_per_sample : ℕ
  samples_per_pixel : ℕ
  black_level : Fin 4 → ℤ
  white_level : Fin 4 → ℤ
  active_area : Fin 4 → ℤ
  orientation : ℤ
  color_matrix2 : Matrix (Fin 3) (Fin 3) ℚ
  forward_matrix2 : Matrix (Fin 3) (Fin 3) ℚ
  camera_calibration2 : Matrix (Fin 3) (Fin 3) ℚ
  analog_balance : Fin 3 → ℚ
  as_shot_neutral : Fin 3 → ℚ
  has_forward_matrix2 : Bool

/-- The matrix inverse computed by Eigen's `.inverse()` on an invertible
3-by-3 matrix, written executably as the adjugate scaled by the reciprocal
determinant; over ℚ this coincides with Mathlib's `Inv.inv` on matrices. -/
def inverse3 (M : Matrix (Fin 3) (Fin 3) ℚ) : Matrix (Fin 3) (Fin 3) ℚ :=
  M.det⁻¹ • M.adjugate

lemma inverse3_eq (M : Matrix (Fin 3) (Fin 3) ℚ) : inverse3 M = M⁻¹ := by
  rw [inverse3, Matrix.inv_def, Ring.inverse_eq_inv]

/-- computeCameraToXYZD50 (HDRImageIO.cpp lines 674-720).  The
forward-matrix branch of the source is guarded by a literal `if (false)`
and is unreachable, so only the live default path is modelled: the
camera-to-XYZ(D50) matrix is the inverse of the ColorMatrix of the second
interpolation set. -/
def computeCameraToXYZD50 (param : DNGImage) : Matrix (Fin 3) (Fin 3) ℚ :=
  inverse3 param.color_matrix2

/-- The combined matrix `CameraTosRGB = XYZD50TosRGB * CameraToXYZD50`
built inside develop (HDRImageIO.cpp line 738). -/
def cameraTosRGB (param2 : DNGImage) : Matrix (Fin 3) (Fin 3) ℚ :=
  XYZD50TosRGB * computeCameraToXYZD50 param2

/-- The first stage of develop (HDRImageIO.cpp lines 745-756): map every
raw mosaic sample to `clamp((raw[i] - blackLevel) * invScale, 0, 1)` with
`invScale = 1 / (whiteLevel - blackLevel)`, replicate it to an RGB triple,
divide componentwise by the white-balance vector, and set alpha to 1. -/
def developPre (raw : List ℚ) (param1 param2 : DNGImage) : Image :=
  let blackLevel : ℚ := (param1.black_level 0 : ℚ)
  let whiteLevel : ℚ := (param1.white_level 0 : ℚ)
  let wb : Fin 3 → ℚ := param2.as_shot_neutral
  let invScale : ℚ := 1 / (whiteLevel - blackLevel)
  ⟨param1.width, param1.height, fun x y =>
    let v := clampQ ((raw.getD (y * param1.width + x) 0 - blackLevel) * invScale) 0 1
    (v / wb 0, v / wb 1, v / wb 2, 1)⟩

/-- develop (HDRImageIO.cpp lines 723-779): normalize and pre-white-balance
the mosaic (developPre), demosaic with the CFA red offset
`(active_area[1] mod 2, active_area[0] mod 2)` and the XYZ hint matrix,
then per pixel undo the white balance (componentwise multiply) and apply
the camera-to-sRGB matrix, with alpha 1.  The demosaic kernel is the
external collaborator of spec section 6 and is a parameter. -/
def develop (demosaic : ℤ × ℤ → Matrix (Fin 3) (Fin 3) ℚ → Image → Image)
    (raw : List ℚ) (param1 param2 : DNGImage) : Image :=
  let redOffset : ℤ × ℤ := (param1.active_area 1 % 2, param1.active_area 0 % 2)
  let M := cameraTosRGB param2
  let wb := param2.as_shot_neutral
  let dem := demosaic redOffset (XYZD50ToXYZD65 * computeCameraToXYZD50 param2)
    (developPre raw param1 param2)
  ⟨dem.width, dem.height, fun x y =>
    let c := dem.pix x y
    let rgb : Fin 3 → ℚ := ![c.1 * wb 0, c.2.1 * wb 1, c.2.2.1 * wb 2]
    let sRGB := M.mulVec rgb
    (sRGB 0, sRGB 1, sRGB 2, 1)⟩

/-- C1: raw development.  Before demosaic every mosaic sample is mapped to
`v = clamp((raw[i] - b) / (W - b), 0, 1)` and divided componentwise by the
white-balance triple; after demosaic every pixel is multiplied
componentwise by the white balance and transformed by the camera-to-sRGB
matrix, `sRGB = M * (rgb * wb)`; the alpha channel is 1 in both stages. -/
theorem C1_develop_pipeline
    (demosaic : ℤ × ℤ → Matrix (Fin 3) (Fin 3) ℚ → Image → Image)
    (raw : List ℚ) (p1 p2 : DNGImage) (x y : ℕ) :
    (developPre raw p1 p2).pix x y =
      (clampQ ((raw.getD (y * p1.width + x) 0 - (p1.black_level 0 : ℚ)) /
          ((p1.white_level 0 : ℚ) - (p1.black_level 0 : ℚ))) 0 1 / p2.as_shot_neutral 0,
       clampQ ((raw.getD (y * p1.width + x) 0 - (p1.black_level 0 : ℚ)) /
          ((p1.white_level 0 : ℚ) - (p1.black_level 0 : ℚ))) 0 1 / p2.as_shot_neutral 1,
       clampQ ((raw.getD (y * p1.width + x) 0 - (p1.black_level 0 : ℚ)) /
          ((p1.white_level 0 : ℚ) - (p1.black_level 0 : ℚ))) 0 1 / p2.as_shot_neutral 2,
       1) ∧
    (develop demosaic raw p1 p2).pix x y =
      (let c := (demosaic (p1.active_area 1 % 2, p1.active_area 0 % 2)
          (XYZD50ToXYZD65 * computeCameraToXYZD50 p2) (developPre raw p1 p2)).pix x y
       let s := (cameraTosRGB p2).mulVec
          ![c.1 * p2.as_shot_neutral 0, c.2.1 * p2.as_shot_neutral 1,
            c.2.2.1 * p2.as_shot_neutral 2]
       (s 0, s 1, s 2, 1)) := by
  constructor
  · simp only [developPre, mul_one_div]
  · rfl

/-- C2: Color-Matrix Builder default path.  For every metadata record with
an invertible ColorMatrix (second interpolation set), computeCameraToXYZD50
is a genuine two-sided matrix inverse of the ColorMatrix, and the combined
camera-to-sRGB matrix used by develop is the fixed constant XYZD50TosRGB
left-multiplied with that inverse. -/
theorem C2_camera_matrix (p : DNGImage) (h : IsUnit p.color_matrix2.det) :
    computeCameraToXYZD50 p * p.color_matrix2 = 1 ∧
    p.color_matrix2 * computeCameraToXYZD50 p = 1 ∧
    cameraTosRGB p = XYZD50TosRGB * p.color_matrix2⁻¹ := by
  rw [cameraTosRGB, computeCameraToXYZD50, inverse3_eq]
  exact ⟨Matrix.nonsing_inv_mul _ h, Matrix.mul_nonsing_inv _ h, rfl⟩

/-- A concrete metadata record with identity ColorMatrix, used to witness
C2. -/
def dngIdentityParams : DNGImage :=
  ⟨4, 4, 16, 1, fun _ => 0, fun _ => 4095, fun _ => 0, 1,
   1, 1, 1, fun _ => 1, fun _ => 1, false⟩

/-- C2 witness: the camera-matrix property evaluated on a record whose
ColorMatrix is the identity (whose determinant 1 is a unit). -/
theorem C2_camera_matrix_witness :
    IsUnit dngIdentityParams.color_matrix2.det ∧
    (computeCameraToXYZD50 dngIdentityParams * dngIdentityParams.color_matrix2 = 1 ∧
     dngIdentityParams.color_matrix2 * computeCameraToXYZD50 dngIdentityParams = 1 ∧
     cameraTosRGB dngIdentityParams = XYZD50TosRGB * dngIdentityParams.color_matrix2⁻¹) := by
  have hdet : IsUnit dngIdentityParams.color_matrix2.det := by
    show IsUnit (Matrix.det (1 : Matrix (Fin 3) (Fin 3) ℚ))
    simp
  exact ⟨hdet, C2_camera_matrix dngIdentityParams hdet⟩

end HDRImageIO

namespace HDRImageIO

lemma floorClampByte_eq (w : ℚ) (n : ℕ) (hn : (n : ℚ) ≤ w) (hn1 : w < n + 1)
    (hub : w ≤ 255) : ⌊min (max w 0) 255⌋₊ = n := by
  have h0 : (0 : ℚ) ≤ w := le_trans (Nat.cast_nonneg n) hn
  rw [max_eq_left h0, min_eq_left hub, Nat.floor_eq_iff h0]
  exact ⟨hn, hn1⟩

/-- The per-pixel dither offset of HDRImage::save (HDRImageIO.cpp line
621): `(dither_matrix256[x mod 256 + (y mod 256) * 256] / 65536 - 0.5) /
255`.  The table itself lives in DitherMatrix256.h, which is not under
src/, so it is a parameter; the spec (section 3, DitherMatrix) only fixes
that its entries lie in [0, 65536). -/
def ditherValue (table : ℕ → ℕ) (x y : ℕ) : ℚ :=
  ((table (x % 256 + y % 256 * 256) : ℚ) / 65536 - 0.5) / 255

/-- One channel of the 8-bit quantization of HDRImage::save (HDRImageIO.cpp
lines 626-630): scale by 255, clamp to [0, 255] (max with 0 then min with
255), and truncate by the unsigned-char cast (floor, since the value is
already nonnegative). -/
def quantize8 (v : ℚ) : ℕ := ⌊min (max (v * 255) 0) 255⌋₊

/-- The 8-bit per-pixel write of HDRImage::save (HDRImageIO.cpp lines
612-632): optionally add the dither offset to the three color channels
(alpha gets 0 added), then quantize each of the three color channels;
exactly three bytes come out and alpha is dropped. -/
def savePixel8 (table : ℕ → ℕ) (dither : Bool) (x y : ℕ) (c : Color4) :
    ℕ × ℕ × ℕ :=
  let d : ℚ := if dither then ditherValue table x y else 0
  (quantize8 (c.1 + d), quantize8 (c.2.1 + d), quantize8 (c.2.2.1 + d))

/-- The per-channel quantization formula exactly as claim C5 words it
(refinement comparison definition, following the claim, not the source):
`truncate(clamp(255 * c + d, 0, 255))` with
`d = (ditherTable[...] / 65536 - 0.5) / 255` when dither is enabled. -/
def savePixel8Claimed (table : ℕ → ℕ) (dither : Bool) (x y : ℕ)
    (c : Color4) : ℕ × ℕ × ℕ :=
  let d : ℚ := if dither then
    ((table (x % 256 + y % 256 * 256) : ℚ) / 65536 - 0.5) / 255 else 0
  (⌊min (max (255 * c.1 + d) 0) 255⌋₊,
   ⌊min (max (255 * c.2.1 + d) 0) 255⌋₊,
   ⌊min (max (255 * c.2.2.1 + d) 0) 255⌋₊)

/-- C5 counterexample: the code adds the dither offset before the scale by
255, so the offset acts at the 0-255 scale as `table/65536 - 0.5`, not as
the claim's `(table/65536 - 0.5) / 255`.  With a table entry 65535 (legal
per the spec's [0, 65536) range) and channel value 638/1275 (= 127.6/255),
the code writes 127.6 + 0.49998... which truncates to 128, while the
claim's formula gives 127.6 + 0.00196... which truncates to 127. -/
theorem C5_counterexample :
    savePixel8 (fun _ => 65535) true 0 0 ((638 / 1275 : ℚ), 0, 0, 1) ≠
      savePixel8Claimed (fun _ => 65535) true 0 0 ((638 / 1275 : ℚ), 0, 0, 1) := by
  have hcode : (savePixel8 (fun _ => 65535) true 0 0 ((638 / 1275 : ℚ), 0, 0, 1)).1 = 128 := by
    simp only [savePixel8, ditherValue, quantize8, if_true]
    have e : ((638 / 1275 : ℚ) + (((65535 : ℕ) : ℚ) / 65536 - 0.5) / 255) * 255 =
        41975803 / 327680 := by norm_num
    rw [e]
    exact floorClampByte_eq _ 128 (by norm_num) (by norm_num) (by norm_num)
  have hclaim : (savePixel8Claimed (fun _ => 65535) true 0 0
      ((638 / 1275 : ℚ), 0, 0, 1)).1 = 127 := by
    simp only [savePixel8Claimed, if_true]
    have e : 255 * (638 / 1275 : ℚ) + (((65535 : ℕ) : ℚ) / 65536 - 0.5) / 255 =
        2132443135 / 16711680 := by norm_num
    rw [e]
    exact floorClampByte_eq _ 127 (by norm_num) (by norm_num) (by norm_num)
  intro h
  rw [h, hclaim] at hcode
  exact absurd hcode (by norm_num)

/-- C5 amended: for every table, pixel position and channel values, the
written bytes are `truncate(clamp(255 * c + d, 0, 255))` per channel where
`d = ditherTable[x mod 256, y mod 256] / 65536 - 0.5` when dither is
enabled (a sub-LSB offset at the 0-255 scale) and 0 otherwise; exactly
three channels are produced and the alpha value never influences them. -/
theorem C5_save_quantization_amended (table : ℕ → ℕ) (dither : Bool)
    (x y : ℕ) (r g b a a' : ℚ) :
    (savePixel8 table dither x y (r, g, b, a) =
      (let d : ℚ := if dither then
          (table (x % 256 + y % 256 * 256) : ℚ) / 65536 - 0.5 else 0
       (⌊min (max (255 * r + d) 0) 255⌋₊,
        ⌊min (max (255 * g + d) 0) 255⌋₊,
        ⌊min (max (255 * b + d) 0) 255⌋₊))) ∧
    savePixel8 table dither x y (r, g, b, a) =
      savePixel8 table dither x y (r, g, b, a') := by
  refine ⟨?_, rfl⟩
  cases dither with
  | false =>
      have e : ∀ ch : ℚ, (ch + 0) * 255 = 255 * ch + 0 := fun ch => by ring
      simp only [savePixel8, quantize8, if_false, Bool.false_eq_true, e]
  | true =>
      have e : ∀ ch : ℚ,
          (ch + ditherValue table x y) * 255 =
            255 * ch + ((table (x % 256 + y % 256 * 256) : ℚ) / 65536 - 0.5) := by
        intro ch
        rw [ditherValue]
        ring
      simp only [savePixel8, quantize8, if_true, e]

/-- The 3-samples-per-pixel DNG path of HDRImage::load (HDRImageIO.cpp
lines 428-453): with `invScale = 1 / 2^bits_per_sample`, first every
unpacked sample is multiplied in place by invScale, then the pixel at
(x, y) is built from `hdr[3 * y * w + x]` scaled by invScale once more,
with the additive channel offsets +0 / +1 / +2 and alpha 1; demosaic is
bypassed. -/
def decode3spp (hdr0 : List ℚ) (w h : ℕ) (bits : ℕ) : Image :=
  let invScale : ℚ := 1 / 2 ^ bits
  let hdr := hdr0.map fun v => v * invScale
  ⟨w, h, fun x y =>
    (hdr.getD (3 * y * w + x) 0 * invScale + 0,
     hdr.getD (3 * y * w + x) 0 * invScale + 1,
     hdr.getD (3 * y * w + x) 0 * invScale + 2, 1)⟩

lemma getD_map_mul (l : List ℚ) (s : ℚ) (i : ℕ) :
    (l.map fun v => v * s).getD i 0 = l.getD i 0 * s := by
  rw [List.getD_eq_getElem?_getD, List.getD_eq_getElem?_getD,
    List.getElem?_map]
  cases h : l[i]? <;> simp [h]

/-- C9 counterexample: the claim's formula applies invScale only once to
the unpacked sample array.  On the one-sample array [2048] with 12
bits-per-sample the code stores 2048 / 4096^2 = 1/8192 in channel 0, not
the claim's 2048 / 4096 + 0 = 1/2. -/
theorem C9_counterexample :
    ((decode3spp [2048] 1 1 12).pix 0 0).1 ≠ (2048 : ℚ) * (1 / 2 ^ 12) + 0 := by
  simp only [decode3spp, List.map_cons, List.map_nil, List.getD_cons_zero]
  norm_num

/-- C9 amended: for every DNG with samples_per_pixel 3, demosaic is
bypassed and channel c of the output pixel at (x, y) is
`raw[3*y*w + x] * invScale^2 + c` where `invScale = 1 / 2^bits_per_sample`
and raw is the unpacked sample array (the normalize pass and the per-pixel
copy each scale by invScale once), with alpha 1. -/
theorem C9_three_spp_amended (hdr0 : List ℚ) (w h bits x y : ℕ) :
    (decode3spp hdr0 w h bits).width = w ∧
    (decode3spp hdr0 w h bits).height = h ∧
    (decode3spp hdr0 w h bits).pix x y =
      (hdr0.getD (3 * y * w + x) 0 * (1 / 2 ^ bits) * (1 / 2 ^ bits) + 0,
       hdr0.getD (3 * y * w + x) 0 * (1 / 2 ^ bits) * (1 / 2 ^ bits) + 1,
       hdr0.getD (3 * y * w + x) 0 * (1 / 2 ^ bits) * (1 / 2 ^ bits) + 2, 1) := by
  refine ⟨rfl, rfl, ?_⟩
  simp only [decode3spp, getD_map_mul]

end HDRImageIO

namespace HDRImageIO

/-- The depth reinterpretation of a 16-bit sample in the 1-channel PNG
branch of HDRImage::load (HDRImageIO.cpp lines 213-217): the value is
`raw16 / 1000`, overwritten with 0 when that quotient exceeds 5. -/
def depthSample (d : ℕ) : ℚ :=
  if (d : ℚ) / 1000 > 5 then 0 else (d : ℚ) / 1000

/-- The whole-buffer depth transform of the 1-channel 16-bit PNG branch
(HDRImageIO.cpp lines 214-217), applied before the scalars are handed to
copyPixelsFromArray. -/
def depthTransform (data16 : List ℕ) : List ℚ :=
  data16.map depthSample

/-- The outcome of TinyNPY's LoadNPY as observed by HDRImage::load
(HDRImageIO.cpp lines 286-307): whether the parse succeeded, the array
shape, the element type, and (abstractly) the image that
copyPixelsFromArray would build from the float data. -/
structure NpyInfo where
  loadOk : Bool
  shape : List ℕ
  dtypeFloat32 : Bool
  dtypeUInt8 : Bool
  decoded : Image

/-- The per-file observations HDRImage::load makes through its codecs:
probe results and decode outcomes for each format branch, in the source's
order (stb, PFM, NPY, EXR, DNG).  Decoded images abstract the codec plus
pixel-copy step, whose content no claim here depends on; `none` means the
decode threw or returned null. -/
structure FileModel where
  extension : String
  isSTB : Bool
  stbPng16 : Option (ℕ × ℕ × List ℕ)
  stbLoadf : Option Image
  stbFailureReason : String
  isPFM : Bool
  pfmLoad : Option (Image × ℕ)
  isNpy : Bool
  npy : NpyInfo
  isEXR : Bool
  exrLoad : Option Image
  exrError : String
  dngLoad : Option Image
  dngError : String

/-- The outcome of HDRImage::load: the returned bool, the image state
after the call, and the diagnostics surfaced through the final
console-error call (empty on success, where that call is not reached). -/
structure LoadResult where
  ok : Bool
  img : Image
  surfaced : List String

/-- The tail of HDRImage::load from the DNG attempt on (HDRImageIO.cpp
lines 362-513): on success return true with the decoded image; on failure
resize to 0-by-0, append the DNG error only when the file extension is
"dng", and return false surfacing the accumulated errors. -/
def loadDNGOnward (f : FileModel) (_img : Image) (errs : List String) :
    LoadResult :=
  match f.dngLoad with
  | some imgD => ⟨true, imgD, []⟩
  | none =>
      ⟨false, emptyImage,
        errs ++ (if f.extension = "dng" then [f.dngError] else [])⟩

/-- The EXR branch of HDRImage::load (HDRImageIO.cpp lines 317-360): on
probe match and successful read return true; on exception resize to 0-by-0
and fall through with the error recorded. -/
def loadEXROnward (f : FileModel) (img : Image) (errs : List String) :
    LoadResult :=
  if f.isEXR then
    match f.exrLoad with
    | some imgE => ⟨true, imgE, []⟩
    | none => loadDNGOnward f emptyImage (errs ++ [f.exrError])
  else loadDNGOnward f img errs

/-- The NPY branch of HDRImage::load (HDRImageIO.cpp lines 281-315):
extension-gated; parse failure and shape failures throw (caught: resize to
0-by-0, record message); 1/3/4-channel float32 data loads; 4-channel uint8
data returns true while touching nothing (the silent-success path); every
other combination throws. -/
def loadNpyOnward (f : FileModel) (img : Image) (errs : List String) :
    LoadResult :=
  if f.isNpy then
    if f.npy.loadOk = false then
      loadEXROnward f emptyImage (errs ++ ["Could not load NPY image."])
    else if f.npy.shape.length < 2 ∨ 3 < f.npy.shape.length then
      loadEXROnward f emptyImage (errs ++ ["NPY not an image."])
    else
      let n := if f.npy.shape.length = 2 then 1 else f.npy.shape.getD 2 0
      if (n = 3 ∨ n = 4 ∨ n = 1) ∧ f.npy.dtypeFloat32 = true then
        ⟨true, f.npy.decoded, []⟩
      else if n ≠ 4 ∨ f.npy.dtypeUInt8 = false then
        loadEXROnward f emptyImage
          (errs ++ ["Only 1- 3- 4-channel float NPYs are currently supported."])
      else ⟨true, img, []⟩
  else loadEXROnward f img errs

/-- The PFM branch of HDRImage::load (HDRImageIO.cpp lines 242-278): on
probe match, a null result or a channel count other than 3 or 1 throws
(caught: resize to 0-by-0, record message); otherwise the decoded image is
returned. -/
def loadPFMOnward (f : FileModel) (img : Image) (errs : List String) :
    LoadResult :=
  if f.isPFM then
    match f.pfmLoad with
    | some p =>
        if p.2 = 3 ∨ p.2 = 1 then ⟨true, p.1, []⟩
        else loadNpyOnward f emptyImage
          (errs ++ ["Only 3-channel or 1-channel PFMs are currently supported."])
    | none =>
        loadNpyOnward f emptyImage (errs ++ ["Could not load PFM image."])
  else loadNpyOnward f img errs

/-- HDRImage::load (HDRImageIO.cpp lines 179-514): probe stb first; a
1-channel PNG at 16 bits per channel takes the depth-reinterpretation path
(depthTransform then the 1-channel pixel copy, abstracted as `convert1`);
otherwise a successful stbi_loadf returns directly; an stb failure records
the failure reason without resizing and falls through to the PFM, NPY,
EXR and DNG branches. -/
def load (convert1 : List ℚ → ℕ → ℕ → Image) (f : FileModel)
    (img0 : Image) : LoadResult :=
  if f.isSTB then
    match f.stbPng16 with
    | some t => ⟨true, convert1 (depthTransform t.2.2) t.1 t.2.1, []⟩
    | none =>
        match f.stbLoadf with
        | some img1 => ⟨true, img1, []⟩
        | none => loadPFMOnward f img0 [f.stbFailureReason]
  else loadPFMOnward f img0 []

end HDRImageIO

namespace HDRImageIO

lemma loadDNGOnward_fail (f : FileModel) (hdng : f.dngLoad = none)
    (img : Image) (errs : List String) :
    loadDNGOnward f img errs =
      ⟨false, emptyImage,
        errs ++ (if f.extension = "dng" then [f.dngError] else [])⟩ := by
  simp only [loadDNGOnward, hdng]

lemma loadEXROnward_fail (f : FileModel)
    (hexr : f.isEXR = true → f.exrLoad = none) (hdng : f.dngLoad = none)
    (img : Image) (errs : List String) :
    loadEXROnward f img errs =
      ⟨false, emptyImage,
        errs ++ (if f.isEXR then [f.exrError] else []) ++
          (if f.extension = "dng" then [f.dngError] else [])⟩ := by
  cases hE : f.isEXR with
  | false => simp [loadEXROnward, hE, loadDNGOnward_fail f hdng]
  | true => simp [loadEXROnward, hE, hexr hE, loadDNGOnward_fail f hdng]

lemma loadNpyOnward_fail (f : FileModel)
    (hnpy : f.isNpy = true →
      f.npy.loadOk = false ∨
      (f.npy.shape.length < 2 ∨ 3 < f.npy.shape.length) ∨
      (¬(((if f.npy.shape.length = 2 then 1 else f.npy.shape.getD 2 0) = 3 ∨
            (if f.npy.shape.length = 2 then 1 else f.npy.shape.getD 2 0) = 4 ∨
            (if f.npy.shape.length = 2 then 1 else f.npy.shape.getD 2 0) = 1) ∧
          f.npy.dtypeFloat32 = true) ∧
        ((if f.npy.shape.length = 2 then 1 else f.npy.shape.getD 2 0) ≠ 4 ∨
          f.npy.dtypeUInt8 = false)))
    (hexr : f.isEXR = true → f.exrLoad = none) (hdng : f.dngLoad = none)
    (img : Image) (errs : List String) :
    loadNpyOnward f img errs =
      ⟨false, emptyImage,
        errs ++
          (if f.isNpy then
            (if f.npy.loadOk = false then ["Could not load NPY image."]
             else if f.npy.shape.length < 2 ∨ 3 < f.npy.shape.length then
               ["NPY not an image."]
             else ["Only 1- 3- 4-channel float NPYs are currently supported."])
           else []) ++
          (if f.isEXR then [f.exrError] else []) ++
          (if f.extension = "dng" then [f.dngError] else [])⟩ := by
  cases hN : f.isNpy with
  | false => simp [loadNpyOnward, hN, loadEXROnward_fail f hexr hdng]
  | true =>
      by_cases hOk : f.npy.loadOk = false
      · simp [loadNpyOnward, hN, hOk, loadEXROnward_fail f hexr hdng]
      · by_cases hS : f.npy.shape.length < 2 ∨ 3 < f.npy.shape.length
        · simp [loadNpyOnward, hN, hOk, hS, loadEXROnward_fail f hexr hdng]
        · rcases hnpy hN with h1 | h2 | ⟨hA, hB⟩
          · exact absurd h1 hOk
          · exact absurd h2 hS
          · simp only [loadNpyOnward, if_pos hN, if_neg hOk, if_neg hS,
              if_neg hA, if_pos hB, if_true, loadEXROnward_fail f hexr hdng]

lemma loadPFMOnward_fail (f : FileModel)
    (hpfm : f.isPFM = true → ∀ p, f.pfmLoad = some p → p.2 ≠ 3 ∧ p.2 ≠ 1)
    (hnpy : f.isNpy = true →
      f.npy.loadOk = false ∨
      (f.npy.shape.length < 2 ∨ 3 < f.npy.shape.length) ∨
      (¬(((if f.npy.shape.length = 2 then 1 else f.npy.shape.getD 2 0) = 3 ∨
            (if f.npy.shape.length = 2 then 1 else f.npy.shape.getD 2 0) = 4 ∨
            (if f.npy.shape.length = 2 then 1 else f.npy.shape.getD 2 0) = 1) ∧
          f.npy.dtypeFloat32 = true) ∧
        ((if f.npy.shape.length = 2 then 1 else f.npy.shape.getD 2 0) ≠ 4 ∨
          f.npy.dtypeUInt8 = false)))
    (hexr : f.isEXR = true → f.exrLoad = none) (hdng : f.dngLoad = none)
    (img : Image) (errs : List String) :
    loadPFMOnward f img errs =
      ⟨false, emptyImage,
        errs ++
          (if f.isPFM then
            (match f.pfmLoad with
             | none => ["Could not load PFM image."]
             | some _ =>
                ["Only 3-channel or 1-channel PFMs are currently supported."])
           else []) ++
          (if f.isNpy then
            (if f.npy.loadOk = false then ["Could not load NPY image."]
             else if f.npy.shape.length < 2 ∨ 3 < f.npy.shape.length then
               ["NPY not an image."]
             else ["Only 1- 3- 4-channel float NPYs are currently supported."])
           else []) ++
          (if f.isEXR then [f.exrError] else []) ++
          (if f.extension = "dng" then [f.dngError] else [])⟩ := by
  cases hP : f.isPFM with
  | false => simp [loadPFMOnward, hP, loadNpyOnward_fail f hnpy hexr hdng]
  | true =>
      cases hL : f.pfmLoad with
      | none => simp [loadPFMOnward, hP, hL, loadNpyOnward_fail f hnpy hexr hdng]
      | some p =>
          have hn := hpfm hP p hL
          have hnot : ¬(p.2 = 3 ∨ p.2 = 1) := by
            rintro (h | h)
            · exact hn.1 h
            · exact hn.2 h
          simp [loadPFMOnward, hP, hL, hnot, loadNpyOnward_fail f hnpy hexr hdng]

/-- C6: load total failure.  Whenever no format probe matches or every
matched probe's decode fails (the NPY silent-success combination
excluded), HDRImage::load returns false rather than throwing, leaves the
image resized to 0-by-0, and surfaces exactly the accumulated per-format
diagnostics (the DNG error filtered by the "dng" extension as in the
source). -/
theorem C6_load_total_failure (convert1 : List ℚ → ℕ → ℕ → Image)
    (f : FileModel) (img0 : Image)
    (hstb : f.isSTB = true → f.stbPng16 = none ∧ f.stbLoadf = none)
    (hpfm : f.isPFM = true → ∀ p, f.pfmLoad = some p → p.2 ≠ 3 ∧ p.2 ≠ 1)
    (hnpy : f.isNpy = true →
      f.npy.loadOk = false ∨
      (f.npy.shape.length < 2 ∨ 3 < f.npy.shape.length) ∨
      (¬(((if f.npy.shape.length = 2 then 1 else f.npy.shape.getD 2 0) = 3 ∨
            (if f.npy.shape.length = 2 then 1 else f.npy.shape.getD 2 0) = 4 ∨
            (if f.npy.shape.length = 2 then 1 else f.npy.shape.getD 2 0) = 1) ∧
          f.npy.dtypeFloat32 = true) ∧
        ((if f.npy.shape.length = 2 then 1 else f.npy.shape.getD 2 0) ≠ 4 ∨
          f.npy.dtypeUInt8 = false)))
    (hexr : f.isEXR = true → f.exrLoad = none) (hdng : f.dngLoad = none) :
    load convert1 f img0 =
      ⟨false, emptyImage,
        (if f.isSTB then [f.stbFailureReason] else []) ++
          (if f.isPFM then
            (match f.pfmLoad with
             | none => ["Could not load PFM image."]
             | some _ =>
                ["Only 3-channel or 1-channel PFMs are currently supported."])
           else []) ++
          (if f.isNpy then
            (if f.npy.loadOk = false then ["Could not load NPY image."]
             else if f.npy.shape.length < 2 ∨ 3 < f.npy.shape.length then
               ["NPY not an image."]
             else ["Only 1- 3- 4-channel float NPYs are currently supported."])
           else []) ++
          (if f.isEXR then [f.exrError] else []) ++
          (if f.extension = "dng" then [f.dngError] else [])⟩ := by
  cases hS : f.isSTB with
  | false => simp [load, hS, loadPFMOnward_fail f hpfm hnpy hexr hdng]
  | true =>
      obtain ⟨h1, h2⟩ := hstb hS
      simp [load, hS, h1, h2, loadPFMOnward_fail f hpfm hnpy hexr hdng]

end HDRImageIO

namespace HDRImageIO

/-- C6 witness: total failure evaluated on a concrete "dng"-named file
whose stb probe matches but whose decodes all fail: load returns false,
the image is the empty 0-by-0 image, and the stb and DNG diagnostics are
surfaced. -/
theorem C6_load_total_failure_witness :
    load (fun _ _ _ => emptyImage)
      ⟨"dng", true, none, none, "stb boom", false, none, false,
        ⟨false, [], false, false, emptyImage⟩, false, none, "exr err", none,
        "dng err"⟩ emptyImage =
      ⟨false, emptyImage, ["stb boom", "dng err"]⟩ := by
  have h := C6_load_total_failure (fun _ _ _ => emptyImage)
    ⟨"dng", true, none, none, "stb boom", false, none, false,
      ⟨false, [], false, false, emptyImage⟩, false, none, "exr err", none,
      "dng err"⟩ emptyImage
    (fun _ => ⟨rfl, rfl⟩) nofun nofun nofun rfl
  simpa using h

/-- C10: NPY silent success.  For a .npy file holding a 3-D array with 4
channels of uint8 element type (earlier probes not matching), load
returns true yet neither resizes the image nor writes any pixel: the
image keeps exactly the state it had before the call and no diagnostic is
surfaced. -/
theorem C10_npy_silent_success (convert1 : List ℚ → ℕ → ℕ → Image)
    (f : FileModel) (img0 : Image)
    (hstb : f.isSTB = false) (hpfm : f.isPFM = false) (hnpy : f.isNpy = true)
    (hok : f.npy.loadOk = true) (hshape : f.npy.shape.length = 3)
    (hch : f.npy.shape.getD 2 0 = 4) (hfloat : f.npy.dtypeFloat32 = false)
    (huint : f.npy.dtypeUInt8 = true) :
    load convert1 f img0 = ⟨true, img0, []⟩ := by
  have hS0 : ¬f.isSTB = true := by simp [hstb]
  have hP0 : ¬f.isPFM = true := by simp [hpfm]
  have hOk : ¬f.npy.loadOk = false := by simp [hok]
  have hS : ¬(f.npy.shape.length < 2 ∨ 3 < f.npy.shape.length) := by
    rw [hshape]
    omega
  have hn4 : (if f.npy.shape.length = 2 then 1 else f.npy.shape.getD 2 0) = 4 := by
    rw [if_neg (by rw [hshape]; omega), hch]
  have hfc : ¬(((if f.npy.shape.length = 2 then 1 else f.npy.shape.getD 2 0) = 3 ∨
      (if f.npy.shape.length = 2 then 1 else f.npy.shape.getD 2 0) = 4 ∨
      (if f.npy.shape.length = 2 then 1 else f.npy.shape.getD 2 0) = 1) ∧
      f.npy.dtypeFloat32 = true) := by
    simp [hfloat]
  have hB : ¬((if f.npy.shape.length = 2 then 1 else f.npy.shape.getD 2 0) ≠ 4 ∨
      f.npy.dtypeUInt8 = false) := by
    rw [hn4]
    simp [huint]
  simp only [load, if_neg hS0, loadPFMOnward, if_neg hP0, loadNpyOnward,
    if_pos hnpy, if_neg hOk, if_neg hS, if_neg hfc, if_neg hB]

/-- C10 witness: the silent-success path evaluated on a concrete uint8
4-channel 3-D NPY model and a concrete 5-by-7 image, which comes through
untouched. -/
theorem C10_npy_silent_success_witness :
    load (fun _ _ _ => emptyImage)
      ⟨"npy", false, none, none, "", false, none, true,
        ⟨true, [9, 5, 4], false, true, emptyImage⟩, false, none, "", none, ""⟩
      ⟨5, 7, fun _ _ => ((1 : ℚ), 2, 3, 4)⟩ =
      ⟨true, ⟨5, 7, fun _ _ => ((1 : ℚ), 2, 3, 4)⟩, []⟩ :=
  C10_npy_silent_success _ _ _ rfl rfl rfl rfl rfl rfl rfl rfl

/-- C8: depth-PNG special case.  When the stb probe matches and the file
is a 1-channel PNG at 16 bits per channel, load hands `convert1` (the
1-channel pixel copy) exactly the depth-transformed scalars, and each such
scalar is the raw 16-bit integer divided by 1000 except that any value
strictly greater than 5 is replaced by 0. -/
theorem C8_depth_png (convert1 : List ℚ → ℕ → ℕ → Image) (f : FileModel)
    (img0 : Image) (w h : ℕ) (data16 : List ℕ) (d : ℕ)
    (hstb : f.isSTB = true) (hpng : f.stbPng16 = some (w, h, data16)) :
    load convert1 f img0 = ⟨true, convert1 (depthTransform data16) w h, []⟩ ∧
    ((d : ℚ) / 1000 ≤ 5 → depthSample d = (d : ℚ) / 1000) ∧
    (5 < (d : ℚ) / 1000 → depthSample d = 0) ∧
    (depthTransform data16).length = data16.length ∧
    (∀ i, (depthTransform data16).getD i 0 = depthSample (data16.getD i 0)) := by
  refine ⟨?_, ?_, ?_, ?_, ?_⟩
  · simp [load, hstb, hpng]
  · intro hle
    rw [depthSample, if_neg (not_lt.mpr hle)]
  · intro hgt
    rw [depthSample, if_pos hgt]
  · simp [depthTransform]
  · intro i
    rw [depthTransform, List.getD_eq_getElem?_getD, List.getD_eq_getElem?_getD,
      List.getElem?_map]
    cases hx : data16[i]? with
    | none => simp [depthSample]
    | some v => simp

/-- C8 witness: the depth path evaluated on the concrete 16-bit buffer
[1000, 6000]: load succeeds through the depth branch, 1000 becomes 1, and
6000 (quotient 6 > 5) becomes 0. -/
theorem C8_depth_png_witness :
    load (fun _ _ _ => emptyImage)
      ⟨"png", true, some (2, 1, [1000, 6000]), none, "", false, none, false,
        ⟨false, [], false, false, emptyImage⟩, false, none, "", none, ""⟩
      emptyImage = ⟨true, emptyImage, []⟩ ∧
    depthSample 1000 = 1 ∧ depthSample 6000 = 0 := by
  have h := C8_depth_png (fun _ _ _ => emptyImage)
    ⟨"png", true, some (2, 1, [1000, 6000]), none, "", false, none, false,
      ⟨false, [], false, false, emptyImage⟩, false, none, "", none, ""⟩
    emptyImage 2 1 [1000, 6000] 1000 rfl rfl
  have h2 := C8_depth_png (fun _ _ _ => emptyImage)
    ⟨"png", true, some (2, 1, [1000, 6000]), none, "", false, none, false,
      ⟨false, [], false, false, emptyImage⟩, false, none, "", none, ""⟩
    emptyImage 2 1 [1000, 6000] 6000 rfl rfl
  refine ⟨by simpa using h.1, ?_, h2.2.2.1 (by norm_num)⟩
  have he := h.2.1 (by norm_num)
  rw [he]
  norm_num

end HDRImageIO
